import Mathlib

/-!
Shallow embedding of the marketplace backend (`server.js` as embedded in
`marketplace_backend_node.js`): users/products/orders tables in SQLite,
Express route handlers for signup/login, product CRUD, S3 presign,
Stripe checkout-session creation and the Stripe webhook.

External services are modelled symbolically:
* JWT signing/verification (`jsonwebtoken`) as an inductive `Token` carrying
  the signing secret and claims; `verifyToken` succeeds exactly on tokens
  signed with the expected secret.
* bcrypt hashing as a deterministic tag function (one-way-ness is not needed
  by any claim).
* Stripe webhook signatures (`stripe.webhooks.constructEvent`) as a
  deterministic tag over the raw body; JSON parsing of the raw body as an
  inductive `RawBody` that is either a well-formed event or malformed text.
* The S3 `getSignedUrl` call and the Stripe session-creation call as
  deterministic stubs / handler inputs (their outputs are opaque to every
  claim).
`uuidv4()` and `Date.now()` are passed to each handler as explicit inputs.
-/

namespace Marketplace

/-! ### Symbolic JWT (jsonwebtoken) -/

/-- A bearer token: either a JWT signed with some secret over `(sub, role)`
claims (`jwt.sign` in `generateToken`), or an arbitrary non-JWT string. -/
inductive Token where
  | signed (secret : String) (sub : String) (role : String)
  | invalid (raw : String)
deriving DecidableEq

/-- The claims payload carried by a verified JWT (`sub`, `role`). -/
structure Claims where
  sub : String
  role : String
deriving DecidableEq

/-- `jwt.verify(token, JWT_SECRET)`: succeeds exactly on tokens signed with
the matching secret, returning the claims. -/
def verifyToken (secret : String) : Token → Option Claims
  | .signed s sub role => if s = secret then some ⟨sub, role⟩ else none
  | .invalid _ => none

/-- `generateToken(user)` = `jwt.sign({ sub: user.id, role: user.role }, JWT_SECRET)`. -/
def generateToken (secret : String) (userId role : String) : Token :=
  .signed secret userId role

/-! ### Symbolic bcrypt -/

/-- `bcrypt.hash(plain, 10)`, modelled as a deterministic tag. -/
def hashPassword (plain : String) : String := "bcrypt:" ++ plain

/-- `bcrypt.compare(plain, hash)`; a missing (`undefined`) password never
matches a stored hash. -/
def verifyPassword (plain : Option String) (hash : String) : Bool :=
  match plain with
  | some s => hash == hashPassword s
  | none => false

/-! ### Decimal rendering of numbers (JS number-to-string for naturals) -/

/-- Base-10 digits of `n`, least significant first, with explicit fuel
(structural recursion so the kernel can evaluate it). -/
def natDigitsRev : Nat → Nat → List Nat
  | 0, _ => []
  | fuel + 1, n => if n = 0 then [] else n % 10 :: natDigitsRev fuel (n / 10)

/-- Decimal string of a natural number (JS `${n}` for integer-valued `n`). -/
def natStr (n : Nat) : String :=
  if n = 0 then "0" else ⟨((natDigitsRev n n).map Nat.digitChar).reverse⟩

/-! ### Rows and database state -/

structure User where
  id : String
  name : String
  email : String
  passwordHash : String
  role : String
  createdAt : Nat
deriving DecidableEq

structure Product where
  id : String
  title : String
  priceCents : Int
  description : String
  author : String
  assetKey : String
  createdAt : Nat
deriving DecidableEq

structure Order where
  id : String
  sessionId : String
  customerEmail : String
  status : String
  metadata : String
  createdAt : Nat
deriving DecidableEq

/-- The SQLite database: tables `users`, `products`, `orders`. -/
structure DB where
  users : List User
  products : List Product
  orders : List Order
deriving DecidableEq

def emptyDB : DB := ⟨[], [], []⟩

/-! ### Prepared statements -/

/-- `SELECT * FROM users WHERE email = ?` (a `NULL` email matches no row). -/
def getUserByEmail (email : String) (users : List User) : Option User :=
  users.find? (fun u => u.email == email)

/-- The public projection `SELECT id,name,email,role,created_at FROM users`. -/
structure PubUser where
  id : String
  name : String
  email : String
  role : String
  createdAt : Nat
deriving DecidableEq

/-- `SELECT id,name,email,role,created_at FROM users WHERE id = ?`. -/
def getUserById (uid : String) (users : List User) : Option PubUser :=
  (users.find? (fun u => u.id == uid)).map
    (fun u => ⟨u.id, u.name, u.email, u.role, u.createdAt⟩)

/-- `SELECT * FROM products WHERE id = ?`. -/
def getProductById (pid : String) (products : List Product) : Option Product :=
  products.find? (fun p => p.id == pid)

/-- `SELECT ... FROM products ORDER BY created_at DESC`. -/
def getAllProducts (products : List Product) : List Product :=
  products.insertionSort (fun a b => b.createdAt ≤ a.createdAt)

/-- `UPDATE orders SET status = ? WHERE session_id = ?`. -/
def updateOrderStatus (status sid : String) (orders : List Order) : List Order :=
  orders.map (fun o => if o.sessionId == sid then { o with status := status } else o)

/-! ### Stripe webhook: raw bodies, signatures, `constructEvent` -/

/-- A parsed Stripe event: `event.type` and `event.data.object.id`
(the checkout session id, the only fields the handler reads). -/
structure StripeEvent where
  type : String
  sessionId : String
deriving DecidableEq

/-- The raw webhook request body: either the serialization of a well-formed
event, or text that does not parse as JSON. -/
inductive RawBody where
  | malformed (raw : String)
  | evt (e : StripeEvent)
deriving DecidableEq

/-- Canonical text of a raw body (what the signature is computed over). -/
def rawBodyStr : RawBody → String
  | .malformed s => "raw:" ++ s
  | .evt e => "evt:" ++ e.type ++ ":" ++ e.sessionId

/-- The Stripe signature of a body under a webhook secret (symbolic HMAC). -/
def mkStripeSig (secret : String) (body : RawBody) : String :=
  "stripe-sig:" ++ secret ++ ":" ++ rawBodyStr body

/-- `stripe.webhooks.constructEvent(body, sig, secret)`: throws (here
`.error`) on signature mismatch or on a body that does not parse. -/
def constructEvent (secret : String) (body : RawBody) (sig : String) :
    Except String StripeEvent :=
  if sig = mkStripeSig secret body then
    match body with
    | .evt e => .ok e
    | .malformed _ => .error "invalid payload"
  else .error "signature verification failed"

/-- `JSON.parse(req.body.toString())` (the dev-mode path with no secret). -/
def parseRawBody : RawBody → Except String StripeEvent
  | .evt e => .ok e
  | .malformed _ => .error "invalid json"

/-! ### HTTP responses -/

/-- A product row as rendered by `GET /api/products` (price as a string). -/
structure ListedProduct where
  id : String
  title : String
  price : String
  description : String
  author : String
  assetKey : String
deriving DecidableEq

/-- JSON (or text) response bodies produced by the handlers. -/
inductive RespBody where
  | err (msg : String)
  | webhookErr (msg : String)
  | authOk (token : Token) (user : PubUser)
  | productList (items : List ListedProduct)
  | createdProduct (id title price : String)
      (description author assetKey : Option String)
  | okTrue
  | presignOk (uploadUrl key publicUrl : String)
  | checkoutUrl (url : String)
  | received
deriving DecidableEq

/-- An HTTP response: status code and body. -/
structure Resp where
  status : Nat
  body : RespBody
deriving DecidableEq

/-- Server configuration from the environment (`.env`). -/
structure Config where
  jwtSecret : String
  webhookSecret : Option String
  s3Bucket : String
  awsRegion : String

/-! ### Truthiness of request-body fields (JS `!x`) -/

/-- A string field is truthy when present and non-empty. -/
def truthyStr : Option String → Bool
  | none => false
  | some s => s != ""

/-- A numeric field is truthy when present and nonzero. -/
def truthyQ : Option ℚ → Bool
  | none => false
  | some q => q != 0

/-- JS `Math.round` (round half toward +infinity). -/
def jsRound (q : ℚ) : Int := ⌊q + 1 / 2⌋

/-- Two-digit rendering of `n < 100` (the fractional part of `toFixed(2)`). -/
def pad2 (n : Nat) : String :=
  if n < 10 then "0" ++ natStr n else natStr n

/-- `(cents / 100).toFixed(2)`: the price string rendered from stored cents. -/
def renderCents (c : Int) : String :=
  (if c < 0 then "-" else "") ++ natStr (c.natAbs / 100) ++ "." ++ pad2 (c.natAbs % 100)

/-! ### Auth middleware -/

/-- The `Authorization` header after splitting on a single space: absent, or
a list of parts where the second (when the list has exactly two) is the
candidate token. -/
def authMiddleware (secret : String) (auth : Option (List Token)) :
    Except Resp Claims :=
  match auth with
  | none => .error ⟨401, .err "No auth"⟩
  | some [_, tok] =>
    match verifyToken secret tok with
    | some payload => .ok payload
    | none => .error ⟨401, .err "Invalid token"⟩
  | some _ => .error ⟨401, .err "Bad auth"⟩

/-! ### Route handlers -/

/-- `POST /api/signup`. `newId` is the fresh `uuidv4()`, `now` is `Date.now()`. -/
def signupHandler (cfg : Config) (name email password : Option String)
    (newId : String) (now : Nat) (st : DB) : Resp × DB :=
  if !truthyStr email || !truthyStr password then
    (⟨400, .err "Missing fields"⟩, st)
  else
    match getUserByEmail (email.getD "") st.users with
    | some _ => (⟨409, .err "Email exists"⟩, st)
    | none =>
      let hash := hashPassword (password.getD "")
      let role := "admin"
      let u : User := ⟨newId, name.getD "", email.getD "", hash, role, now⟩
      let users' := st.users ++ [u]
      match getUserById newId users' with
      | some pub =>
        (⟨200, .authOk (generateToken cfg.jwtSecret pub.id pub.role) pub⟩,
          { st with users := users' })
      | none => (⟨500, .err "internal"⟩, st)  -- unreachable: row was just inserted

/-- `POST /api/login`. -/
def loginHandler (cfg : Config) (email password : Option String) (st : DB) :
    Resp × DB :=
  match email.bind (fun e => getUserByEmail e st.users) with
  | none => (⟨401, .err "Invalid"⟩, st)
  | some row =>
    if verifyPassword password row.passwordHash then
      match getUserById row.id st.users with
      | some pub =>
        (⟨200, .authOk (generateToken cfg.jwtSecret pub.id pub.role) pub⟩, st)
      | none => (⟨500, .err "internal"⟩, st)  -- unreachable: row exists
    else (⟨401, .err "Invalid"⟩, st)

/-- `GET /api/products` (public, no auth). -/
def productsListHandler (st : DB) : Resp × DB :=
  (⟨200, .productList ((getAllProducts st.products).map
    (fun r => ⟨r.id, r.title, renderCents r.priceCents, r.description,
               r.author, r.assetKey⟩))⟩, st)

/-- Request body of `POST /api/products` / `PUT /api/products/:id`. Price is
a numeric JSON field (non-numeric price input is outside this model's scope;
see spec section 4.2). -/
structure ProductBody where
  title : Option String
  price : Option ℚ
  description : Option String
  author : Option String
  assetKey : Option String

/-- `POST /api/products` (admin only). -/
def productsCreateHandler (cfg : Config) (auth : Option (List Token))
    (body : ProductBody) (newId : String) (now : Nat) (st : DB) : Resp × DB :=
  match authMiddleware cfg.jwtSecret auth with
  | .error r => (r, st)
  | .ok user =>
    if user.role ≠ "admin" then (⟨403, .err "Forbidden"⟩, st)
    else if !truthyStr body.title || !truthyQ body.price then
      (⟨400, .err "Missing"⟩, st)
    else
      let priceCents := jsRound (body.price.getD 0 * 100)
      let p : Product := ⟨newId, body.title.getD "", priceCents,
        body.description.getD "", body.author.getD "", body.assetKey.getD "", now⟩
      (⟨200, .createdProduct newId (body.title.getD "") (renderCents priceCents)
          body.description body.author body.assetKey⟩,
        { st with products := st.products ++ [p] })

/-- The `x || row.f` fallback used by the update statement arguments: a
falsy new value (absent or empty string) keeps the stored one. -/
def orStr (new : Option String) (old : String) : String :=
  match new with
  | some s => if s = "" then old else s
  | none => old

/-- `PUT /api/products/:id` (admin only, partial merge with falsy fallback). -/
def productsUpdateHandler (cfg : Config) (auth : Option (List Token))
    (pid : String) (body : ProductBody) (st : DB) : Resp × DB :=
  match authMiddleware cfg.jwtSecret auth with
  | .error r => (r, st)
  | .ok user =>
    if user.role ≠ "admin" then (⟨403, .err "Forbidden"⟩, st)
    else
      match getProductById pid st.products with
      | none => (⟨404, .err "Not found"⟩, st)
      | some row =>
        -- Math.round(Number(price) * 100); Number(undefined) is NaN and
        -- NaN || old falls back, as does the falsy 0.
        let newCents : Int :=
          match body.price.map (fun q => jsRound (q * 100)) with
          | some c => if c = 0 then row.priceCents else c
          | none => row.priceCents
        let p' : Product := { row with
          title := orStr body.title row.title
          priceCents := newCents
          description := orStr body.description row.description
          author := orStr body.author row.author
          assetKey := orStr body.assetKey row.assetKey }
        let products' := st.products.map (fun q => if q.id == pid then p' else q)
        (⟨200, .okTrue⟩, { st with products := products' })

/-- `DELETE /api/products/:id` (admin only, unconditional). -/
def productsDeleteHandler (cfg : Config) (auth : Option (List Token))
    (pid : String) (st : DB) : Resp × DB :=
  match authMiddleware cfg.jwtSecret auth with
  | .error r => (r, st)
  | .ok user =>
    if user.role ≠ "admin" then (⟨403, .err "Forbidden"⟩, st)
    else (⟨200, .okTrue⟩,
      { st with products := st.products.filter (fun p => p.id != pid) })

/-! ### S3 presign -/

/-- Characters the sanitizer keeps: `[a-zA-Z0-9.-]`. -/
def allowedCharB (c : Char) : Bool :=
  c.isAlphanum || c == '.' || c == '-'

/-- `filename.replace(/[^a-zA-Z0-9.-]/g, '_')`. -/
def sanitizeFilename (s : String) : String :=
  ⟨s.data.map (fun c => if allowedCharB c then c else '_')⟩

/-- The generated object key: `uploads/${Date.now()}_${sanitized}`. -/
def presignKey (now : Nat) (filename : String) : String :=
  "uploads/" ++ natStr now ++ "_" ++ sanitizeFilename filename

/-- `POST /api/uploads/presign` (admin only). The external `getSignedUrl`
call is modelled as a deterministic success; its output is opaque. -/
def presignHandler (cfg : Config) (auth : Option (List Token))
    (filename contentType : Option String) (now : Nat) (st : DB) : Resp × DB :=
  match authMiddleware cfg.jwtSecret auth with
  | .error r => (r, st)
  | .ok user =>
    if user.role ≠ "admin" then (⟨403, .err "Forbidden"⟩, st)
    else if !truthyStr filename || !truthyStr contentType then
      (⟨400, .err "Missing"⟩, st)
    else
      let key := presignKey now (filename.getD "")
      let url := "presigned:" ++ cfg.s3Bucket ++ ":" ++ key
      let publicUrl := "https://" ++ cfg.s3Bucket ++ ".s3." ++ cfg.awsRegion
        ++ ".amazonaws.com/" ++ key
      (⟨200, .presignOk url key publicUrl⟩, st)

/-! ### Stripe checkout and webhook -/

/-- A line item of the checkout request body. -/
structure Item where
  title : String
  price : ℚ
  quantity : Option Nat

/-- The session object returned by `stripe.checkout.sessions.create`. -/
structure StripeSession where
  id : String
  url : String

/-- Decimal string of an integer. -/
def intStr (n : Int) : String :=
  (if n < 0 then "-" else "") ++ natStr n.natAbs

/-- `JSON.stringify(items)` (a faithful injective-enough serialization; its
content is never read back by the program). -/
def stringifyItems (items : List Item) : String :=
  "[" ++ String.intercalate ","
    (items.map (fun i =>
      "(title:" ++ i.title ++ ",price:" ++ intStr i.price.num ++ "/"
        ++ natStr i.price.den ++ ",qty:"
        ++ (match i.quantity with | some n => natStr n | none => "null") ++ ")"))
  ++ "]"

/-- `POST /api/create-checkout-session`. `sessionResult` is the outcome of
the external Stripe call (`none` = the call threw); an absent `items` array
makes `items.map` throw, which the catch-all turns into the same 500. -/
def checkoutHandler (items : Option (List Item)) (customerEmail : Option String)
    (sessionResult : Option StripeSession) (newId : String) (now : Nat)
    (st : DB) : Resp × DB :=
  match items with
  | none => (⟨500, .err "stripe error"⟩, st)
  | some its =>
    match sessionResult with
    | none => (⟨500, .err "stripe error"⟩, st)
    | some session =>
      let o : Order := ⟨newId, session.id, customerEmail.getD "", "pending",
        stringifyItems its, now⟩
      (⟨200, .checkoutUrl session.url⟩, { st with orders := st.orders ++ [o] })

/-- `POST /api/webhooks/stripe`. With a configured secret the event is
verified; without one (dev mode) the body is parsed unverified. -/
def webhookHandler (cfg : Config) (body : RawBody) (sig : String) (st : DB) :
    Resp × DB :=
  let eventE : Except String StripeEvent :=
    match cfg.webhookSecret with
    | some secret => constructEvent secret body sig
    | none => parseRawBody body
  match eventE with
  | .error msg => (⟨400, .webhookErr ("Webhook Error: " ++ msg)⟩, st)
  | .ok event =>
    if event.type = "checkout.session.completed" then
      (⟨200, .received⟩,
        { st with orders := updateOrderStatus "paid" event.sessionId st.orders })
    else (⟨200, .received⟩, st)

/-! ### The program as a step function over operations -/

/-- One inbound HTTP request, with the external nondeterminism (fresh ids,
clock, external-call outcomes) made explicit. -/
inductive Op where
  | signup (name email password : Option String) (newId : String) (now : Nat)
  | login (email password : Option String)
  | listProducts
  | createProduct (auth : Option (List Token)) (body : ProductBody)
      (newId : String) (now : Nat)
  | updateProduct (auth : Option (List Token)) (pid : String) (body : ProductBody)
  | deleteProduct (auth : Option (List Token)) (pid : String)
  | presign (auth : Option (List Token)) (filename contentType : Option String)
      (now : Nat)
  | createCheckout (items : Option (List Item)) (customerEmail : Option String)
      (sessionResult : Option StripeSession) (newId : String) (now : Nat)
  | webhook (body : RawBody) (sig : String)

/-- Dispatch of one request to its handler. -/
def applyOp (cfg : Config) : Op → DB → Resp × DB
  | .signup name email password newId now, st =>
    signupHandler cfg name email password newId now st
  | .login email password, st => loginHandler cfg email password st
  | .listProducts, st => productsListHandler st
  | .createProduct auth body newId now, st =>
    productsCreateHandler cfg auth body newId now st
  | .updateProduct auth pid body, st => productsUpdateHandler cfg auth pid body st
  | .deleteProduct auth pid, st => productsDeleteHandler cfg auth pid st
  | .presign auth filename contentType now, st =>
    presignHandler cfg auth filename contentType now st
  | .createCheckout items customerEmail sessionResult newId now, st =>
    checkoutHandler items customerEmail sessionResult newId now st
  | .webhook body sig, st => webhookHandler cfg body sig st

/-- States reachable from the empty database by a sequence of requests. -/
inductive Reachable (cfg : Config) : DB → Prop
  | init : Reachable cfg emptyDB
  | step (op : Op) (st : DB) : Reachable cfg st → Reachable cfg (applyOp cfg op st).2

/-- The spec's description of the sanitizer, modelled from its words:
"strip characters outside `[A-Za-z0-9.-]`" (remove them outright). -/
def stripFilenameSpec (s : String) : String :=
  ⟨s.data.filter allowedCharB⟩

/-! ## Lemmas about decimal rendering -/

theorem natDigitsRev_eq_digits :
    ∀ (fuel n : Nat), n ≤ fuel → natDigitsRev fuel n = Nat.digits 10 n := by
  intro fuel
  induction fuel with
  | zero =>
    intro n hn
    interval_cases n
    simp [natDigitsRev]
  | succ f ih =>
    intro n hn
    rw [natDigitsRev]
    by_cases h0 : n = 0
    · simp [h0]
    · have hdiv : n / 10 ≤ f := by
        have hlt : n / 10 < n := Nat.div_lt_self (Nat.pos_of_ne_zero h0) (by norm_num)
        omega
      rw [if_neg h0, @Nat.digits_def' 10 (by norm_num) n (Nat.pos_of_ne_zero h0),
        ih (n / 10) hdiv]

theorem digitChar_injOn :
    ∀ a, a < 10 → ∀ b, b < 10 → Nat.digitChar a = Nat.digitChar b → a = b := by
  decide

theorem map_digitChar_inj :
    ∀ (l₁ l₂ : List Nat), (∀ x ∈ l₁, x < 10) → (∀ x ∈ l₂, x < 10) →
      l₁.map Nat.digitChar = l₂.map Nat.digitChar → l₁ = l₂ := by
  intro l₁
  induction l₁ with
  | nil =>
    intro l₂ _ _ h
    cases l₂ with
    | nil => rfl
    | cons b t => simp at h
  | cons a t ih =>
    intro l₂ h₁ h₂ h
    cases l₂ with
    | nil => simp at h
    | cons b t₂ =>
      simp only [List.map_cons, List.cons.injEq] at h
      have ha : a < 10 := h₁ a (by simp)
      have hb : b < 10 := h₂ b (by simp)
      have hab := digitChar_injOn a ha b hb h.1
      have ht := ih t₂ (fun x hx => h₁ x (by simp [hx]))
        (fun x hx => h₂ x (by simp [hx])) h.2
      rw [hab, ht]

theorem natStr_eq_of_ne_zero {n : Nat} (h : n ≠ 0) :
    natStr n = ⟨((Nat.digits 10 n).map Nat.digitChar).reverse⟩ := by
  rw [natStr, if_neg h, natDigitsRev_eq_digits n n le_rfl]

theorem natStr_ne_zero_str {n : Nat} (h : n ≠ 0) : natStr n ≠ "0" := by
  rw [natStr_eq_of_ne_zero h]
  intro hcontra
  rw [show ("0" : String) = ⟨['0']⟩ from rfl] at hcontra
  injection hcontra with hdata
  have hmap : (Nat.digits 10 n).map Nat.digitChar = ['0'] := by
    have := congrArg List.reverse hdata
    simpa using this
  have hdig : Nat.digits 10 n = [0] := by
    refine map_digitChar_inj _ [0] (fun x hx => Nat.digits_lt_base (by norm_num) hx)
      (by simp) ?_
    simpa using hmap
  have hzero : n = Nat.ofDigits 10 [0] := by rw [← hdig, Nat.ofDigits_digits]
  simp [Nat.ofDigits_cons, Nat.ofDigits_nil] at hzero
  exact h hzero

theorem natStr_injective : Function.Injective natStr := by
  intro m n h
  by_cases hm : m = 0 <;> by_cases hn : n = 0
  · rw [hm, hn]
  · subst hm
    exact absurd (h.symm.trans (rfl : natStr 0 = "0")) (natStr_ne_zero_str hn)
  · subst hn
    exact absurd (h.trans (rfl : natStr 0 = "0")) (natStr_ne_zero_str hm)
  · rw [natStr_eq_of_ne_zero hm, natStr_eq_of_ne_zero hn] at h
    injection h with hdata
    have hrev := congrArg List.reverse hdata
    simp only [List.reverse_reverse] at hrev
    have hdig := map_digitChar_inj _ _
      (fun x hx => Nat.digits_lt_base (by norm_num) hx)
      (fun x hx => Nat.digits_lt_base (by norm_num) hx) hrev
    exact Nat.digits.injective 10 hdig

/-- Keys from different timestamps differ (the sanitized filename may agree). -/
theorem presignKey_injective_in_time (t₁ t₂ : Nat) (f : String) (h : t₁ ≠ t₂) :
    presignKey t₁ f ≠ presignKey t₂ f := by
  intro hkey
  apply h
  apply natStr_injective
  apply String.ext
  unfold presignKey at hkey
  have hdata := congrArg String.data hkey
  simp only [String.data_append, List.append_assoc] at hdata
  exact List.append_cancel_right (List.append_cancel_left hdata)

/-! ## Concrete fixtures used by witnesses -/

def cfgW : Config := ⟨"jwt-secret", some "whsec", "bucket", "us-east-1"⟩

def adminTok : Token := .signed "jwt-secret" "u1" "admin"

def authW : Option (List Token) := some [.invalid "Bearer", adminTok]

/-! ## C4: the presign object key -/

/-- C4 counterexample: the code replaces each character outside
`[A-Za-z0-9.-]` with `'_'` rather than stripping it, so for the filename
`"a b"` at timestamp 5 the generated key is `"uploads/5_a_b"`, which differs
from the stripped form, and it contains `'_'`, a character outside the
allowed set, after its prefix. -/
theorem presign_key_counterexample :
    presignKey 5 "a b" = "uploads/5_a_b" ∧
    presignKey 5 "a b" ≠ "uploads/" ++ natStr 5 ++ "_" ++ stripFilenameSpec "a b" ∧
    '_' ∈ (sanitizeFilename "a b").data ∧ allowedCharB '_' = false := by
  decide

/-- C4 (amended): for every presign call by an admin with filename and
contentType present, the returned object key is the filename sanitized by
REPLACING each character outside `[A-Za-z0-9.-]` with `'_'`, prefixed with a
timestamp; two calls with identical filenames at different timestamps return
distinct keys; and after its prefix the key contains only characters of the
allowed set or `'_'`. The handler leaves the database unchanged. -/
theorem presign_key_sanitized_unique (cfg : Config) (auth : Option (List Token))
    (c : Claims) (filename contentType : Option String) (now : Nat) (st : DB)
    (hauth : authMiddleware cfg.jwtSecret auth = .ok c)
    (hrole : c.role = "admin")
    (hf : truthyStr filename = true) (hct : truthyStr contentType = true) :
    (∃ url purl, (presignHandler cfg auth filename contentType now st).1 =
      ⟨200, .presignOk url (presignKey now (filename.getD "")) purl⟩) ∧
    (presignHandler cfg auth filename contentType now st).2 = st ∧
    presignKey now (filename.getD "") =
      "uploads/" ++ natStr now ++ "_" ++ sanitizeFilename (filename.getD "") ∧
    (∀ ch ∈ (sanitizeFilename (filename.getD "")).data,
      allowedCharB ch = true ∨ ch = '_') ∧
    (∀ t₁ t₂ : Nat, t₁ ≠ t₂ →
      presignKey t₁ (filename.getD "") ≠ presignKey t₂ (filename.getD "")) := by
  refine ⟨?_, ?_, rfl, ?_, fun t₁ t₂ ht => presignKey_injective_in_time t₁ t₂ _ ht⟩
  · refine ⟨"presigned:" ++ cfg.s3Bucket ++ ":" ++ presignKey now (filename.getD ""),
      "https://" ++ cfg.s3Bucket ++ ".s3." ++ cfg.awsRegion ++ ".amazonaws.com/"
        ++ presignKey now (filename.getD ""), ?_⟩
    simp [presignHandler, hauth, hrole, hf, hct]
  · simp [presignHandler, hauth, hrole, hf, hct]
  · intro ch hch
    simp only [sanitizeFilename, List.mem_map] at hch
    obtain ⟨c0, _, hc0⟩ := hch
    by_cases hallowed : allowedCharB c0
    · left
      rw [← hc0, if_pos hallowed]
      exact hallowed
    · right
      rw [← hc0, if_neg hallowed]

/-- C4 witness: the amended theorem applied to a concrete admin call
(filename `"a b.png"`, timestamp 7). -/
theorem presign_key_sanitized_unique_witness :
    authMiddleware cfgW.jwtSecret authW = .ok ⟨"u1", "admin"⟩ ∧
    (⟨"u1", "admin"⟩ : Claims).role = "admin" ∧
    truthyStr (some "a b.png") = true ∧
    truthyStr (some "image/png") = true ∧
    ((∃ url purl,
      (presignHandler cfgW authW (some "a b.png") (some "image/png") 7 emptyDB).1 =
        ⟨200, .presignOk url (presignKey 7 ((some "a b.png").getD "")) purl⟩) ∧
    (presignHandler cfgW authW (some "a b.png") (some "image/png") 7 emptyDB).2 =
      emptyDB ∧
    presignKey 7 ((some "a b.png").getD "") =
      "uploads/" ++ natStr 7 ++ "_" ++ sanitizeFilename ((some "a b.png").getD "") ∧
    (∀ ch ∈ (sanitizeFilename ((some "a b.png").getD "")).data,
      allowedCharB ch = true ∨ ch = '_') ∧
    (∀ t₁ t₂ : Nat, t₁ ≠ t₂ →
      presignKey t₁ ((some "a b.png").getD "") ≠
        presignKey t₂ ((some "a b.png").getD ""))) :=
  ⟨rfl, rfl, rfl, rfl,
    presign_key_sanitized_unique cfgW authW ⟨"u1", "admin"⟩ (some "a b.png")
      (some "image/png") 7 emptyDB rfl rfl rfl rfl⟩

/-! ## Webhook lemmas -/

theorem updateOrderStatus_eq_self {status sid : String} :
    ∀ {orders : List Order}, (∀ o ∈ orders, o.sessionId ≠ sid) →
      updateOrderStatus status sid orders = orders := by
  intro orders
  induction orders with
  | nil => intro _; rfl
  | cons o t ih =>
    intro h
    unfold updateOrderStatus at *
    simp only [List.map_cons]
    have hcond : ¬(o.sessionId == sid) = true := by
      simp only [beq_iff_eq]
      exact h o (by simp)
    rw [if_neg hcond, ih (fun x hx => h x (by simp [hx]))]

theorem updateOrderStatus_idem (status sid : String) (l : List Order) :
    updateOrderStatus status sid (updateOrderStatus status sid l) =
      updateOrderStatus status sid l := by
  unfold updateOrderStatus
  rw [List.map_map]
  apply List.map_congr_left
  intro o _
  by_cases hc : (o.sessionId == sid) = true
  · simp [Function.comp, hc]
  · simp [Function.comp, hc]

/-! ## C3: invalid or malformed webhook requests -/

/-- C3: with the webhook secret configured, a webhook request whose payload
is malformed or whose signature does not verify against the secret is
answered with HTTP 400 and every order row (indeed the whole database) is
left unchanged. -/
theorem webhook_invalid_rejected (cfg : Config) (s : String) (body : RawBody)
    (sig : String) (st : DB) (hs : cfg.webhookSecret = some s)
    (hbad : sig ≠ mkStripeSig s body ∨ ∃ raw, body = .malformed raw) :
    (webhookHandler cfg body sig st).1.status = 400 ∧
    (webhookHandler cfg body sig st).2 = st := by
  have hev : ∃ msg, constructEvent s body sig = Except.error msg := by
    rcases hbad with hsig | ⟨raw, hraw⟩
    · exact ⟨"signature verification failed", by simp [constructEvent, hsig]⟩
    · subst hraw
      unfold constructEvent
      by_cases hsig : sig = mkStripeSig s (.malformed raw)
      · exact ⟨_, by rw [if_pos hsig]⟩
      · exact ⟨_, by rw [if_neg hsig]⟩
  obtain ⟨msg, hmsg⟩ := hev
  constructor <;> simp [webhookHandler, hs, hmsg]

/-- C3 witness: a malformed body with a non-verifying signature is rejected
with 400 and the database is untouched. -/
theorem webhook_invalid_rejected_witness :
    cfgW.webhookSecret = some "whsec" ∧
    ("bad-sig" ≠ mkStripeSig "whsec" (.malformed "junk") ∨
      ∃ raw, RawBody.malformed "junk" = RawBody.malformed raw) ∧
    (webhookHandler cfgW (.malformed "junk") "bad-sig" emptyDB).1.status = 400 ∧
    (webhookHandler cfgW (.malformed "junk") "bad-sig" emptyDB).2 = emptyDB :=
  ⟨rfl, Or.inr ⟨"junk", rfl⟩,
    webhook_invalid_rejected cfgW "whsec" (.malformed "junk") "bad-sig" emptyDB
      rfl (Or.inr ⟨"junk", rfl⟩)⟩

/-! ## C2: verified completion events -/

/-- C2: a verified `checkout.session.completed` event acknowledges with 200,
sets every order whose `session_id` matches the event's session to `paid`
and leaves every other order unchanged, is a no-op (not an error) when no
matching order exists, and replaying the identical event yields the same
final state (idempotence). -/
theorem webhook_completion_paid_idempotent (cfg : Config) (s : String)
    (body : RawBody) (sig : String) (e : StripeEvent) (st : DB)
    (hs : cfg.webhookSecret = some s)
    (hev : constructEvent s body sig = .ok e)
    (hty : e.type = "checkout.session.completed") :
    (webhookHandler cfg body sig st).1 = ⟨200, .received⟩ ∧
    (webhookHandler cfg body sig st).2 =
      { st with orders := updateOrderStatus "paid" e.sessionId st.orders } ∧
    (∀ i : Nat, ((webhookHandler cfg body sig st).2.orders[i]?).map Order.status =
      (st.orders[i]?).map
        (fun o => if o.sessionId = e.sessionId then "paid" else o.status)) ∧
    ((∀ o ∈ st.orders, o.sessionId ≠ e.sessionId) →
      (webhookHandler cfg body sig st).2 = st) ∧
    (webhookHandler cfg body sig ((webhookHandler cfg body sig st).2)).2 =
      (webhookHandler cfg body sig st).2 := by
  have hst : (webhookHandler cfg body sig st).2 =
      { st with orders := updateOrderStatus "paid" e.sessionId st.orders } := by
    simp [webhookHandler, hs, hev, hty]
  refine ⟨by simp [webhookHandler, hs, hev, hty], hst, ?_, ?_, ?_⟩
  · intro i
    rw [hst]
    simp only [updateOrderStatus, List.getElem?_map]
    cases st.orders[i]? with
    | none => rfl
    | some o =>
      by_cases hc : o.sessionId = e.sessionId
      · simp [hc]
      · simp [hc]
  · intro hnone
    rw [hst, updateOrderStatus_eq_self hnone]
  · rw [hst]
    simp [webhookHandler, hs, hev, hty, updateOrderStatus_idem]

/-- C2 witness: a verified completion event for session `sess1` marks the
single matching pending order paid; replaying it changes nothing. -/
theorem webhook_completion_paid_idempotent_witness :
    cfgW.webhookSecret = some "whsec" ∧
    constructEvent "whsec" (.evt ⟨"checkout.session.completed", "sess1"⟩)
      (mkStripeSig "whsec" (.evt ⟨"checkout.session.completed", "sess1"⟩)) =
      .ok ⟨"checkout.session.completed", "sess1"⟩ ∧
    ((webhookHandler cfgW (.evt ⟨"checkout.session.completed", "sess1"⟩)
        (mkStripeSig "whsec" (.evt ⟨"checkout.session.completed", "sess1"⟩))
        ⟨[], [], [⟨"o1", "sess1", "a@x.com", "pending", "[]", 0⟩]⟩).2 =
      { (⟨[], [], [⟨"o1", "sess1", "a@x.com", "pending", "[]", 0⟩]⟩ : DB) with
          orders := updateOrderStatus "paid" "sess1"
            [⟨"o1", "sess1", "a@x.com", "pending", "[]", 0⟩] }) :=
  ⟨rfl, by simp [constructEvent],
    (webhook_completion_paid_idempotent cfgW "whsec"
      (.evt ⟨"checkout.session.completed", "sess1"⟩)
      (mkStripeSig "whsec" (.evt ⟨"checkout.session.completed", "sess1"⟩))
      ⟨"checkout.session.completed", "sess1"⟩
      ⟨[], [], [⟨"o1", "sess1", "a@x.com", "pending", "[]", 0⟩]⟩
      rfl (by simp [constructEvent]) rfl).2.1⟩

/-! ## Orders evolution: how one request can change the `orders` table -/

/-- Any single request either leaves the `orders` table unchanged, appends
one `pending` row (checkout-session creation), or marks rows of one session
id `paid` after its event was accepted by the webhook handler. -/
theorem orders_frame (cfg : Config) (op : Op) (st : DB) :
    (applyOp cfg op st).2.orders = st.orders ∨
    (∃ o, (applyOp cfg op st).2.orders = st.orders ++ [o] ∧
      o.status = "pending") ∨
    (∃ body sig e, op = .webhook body sig ∧
      (match cfg.webhookSecret with
        | some s => constructEvent s body sig
        | none => parseRawBody body) = .ok e ∧
      e.type = "checkout.session.completed" ∧
      (applyOp cfg op st).2.orders = updateOrderStatus "paid" e.sessionId st.orders) := by
  cases op with
  | signup name email password newId now =>
    left
    simp only [applyOp]
    unfold signupHandler
    repeat' split
    all_goals try rfl
    all_goals (dsimp only; split) <;> rfl
  | login email password =>
    left
    simp only [applyOp]
    unfold loginHandler
    repeat' split
    all_goals rfl
  | listProducts => left; rfl
  | createProduct auth body newId now =>
    left
    simp only [applyOp]
    unfold productsCreateHandler
    repeat' split
    all_goals rfl
  | updateProduct auth pid body =>
    left
    simp only [applyOp]
    unfold productsUpdateHandler
    repeat' split
    all_goals rfl
  | deleteProduct auth pid =>
    left
    simp only [applyOp]
    unfold productsDeleteHandler
    repeat' split
    all_goals rfl
  | presign auth filename contentType now =>
    left
    simp only [applyOp]
    unfold presignHandler
    repeat' split
    all_goals rfl
  | createCheckout items customerEmail sessionResult newId now =>
    simp only [applyOp]
    unfold checkoutHandler
    cases items with
    | none => left; rfl
    | some its =>
      cases sessionResult with
      | none => left; rfl
      | some session =>
        right; left
        exact ⟨_, rfl, rfl⟩
  | webhook body sig =>
    simp only [applyOp]
    unfold webhookHandler
    cases hev : (match cfg.webhookSecret with
        | some s => constructEvent s body sig
        | none => parseRawBody body) with
    | error msg => left; simp [hev]
    | ok e =>
      by_cases hty : e.type = "checkout.session.completed"
      · right; right
        exact ⟨body, sig, e, rfl, hev, hty, by simp [hev, hty]⟩
      · left; simp [hev, hty]

/-- Every order row in a reachable state has status `pending` or `paid`. -/
theorem reachable_status_pending_or_paid (cfg : Config) (st : DB)
    (h : Reachable cfg st) :
    ∀ o ∈ st.orders, o.status = "pending" ∨ o.status = "paid" := by
  induction h with
  | init => intro o ho; simp [emptyDB] at ho
  | step op st' _ ih =>
    rcases orders_frame cfg op st' with heq | ⟨o2, heq, hp⟩ | ⟨b, sg, e, _, _, _, heq⟩
    · rw [heq]; exact ih
    · rw [heq]
      intro x hx
      rcases List.mem_append.mp hx with hx | hx
      · exact ih x hx
      · left
        rw [List.mem_singleton.mp hx, hp]
    · rw [heq]
      intro x hx
      unfold updateOrderStatus at hx
      obtain ⟨y, hy, hxy⟩ := List.mem_map.mp hx
      by_cases hc : (y.sessionId == e.sessionId) = true
      · rw [if_pos hc] at hxy
        right
        rw [← hxy]
      · rw [if_neg hc] at hxy
        rw [← hxy]
        exact ih y hy

/-! ## C1: the order-status lifecycle -/

/-- C1: with the webhook secret configured, whenever a request changes the
status of an existing order row, the old status was `pending`, the new one
is `paid`, and the request was a webhook delivery whose signature verified
against the secret carrying a `checkout.session.completed` event for that
order's session id. No other operation changes any order's status, and a
`paid` order never changes again (the transition happens at most once). -/
theorem order_status_lifecycle (cfg : Config) (s : String) (st : DB) (op : Op)
    (i : Nat) (o o' : Order)
    (hs : cfg.webhookSecret = some s)
    (hreach : Reachable cfg st)
    (ho : st.orders[i]? = some o)
    (ho' : (applyOp cfg op st).2.orders[i]? = some o')
    (hchange : o'.status ≠ o.status) :
    o.status = "pending" ∧ o'.status = "paid" ∧
    ∃ body sig e, op = .webhook body sig ∧ constructEvent s body sig = .ok e ∧
      e.type = "checkout.session.completed" ∧ o.sessionId = e.sessionId := by
  rcases orders_frame cfg op st with heq | ⟨o2, heq, _⟩ | ⟨body, sig, e, hop, hev, hty, heq⟩
  · rw [heq, ho] at ho'
    exact absurd (congrArg Order.status (Option.some.inj ho')).symm hchange
  · rw [heq] at ho'
    have hi : i < st.orders.length := (List.getElem?_eq_some_iff.mp ho).1
    rw [List.getElem?_append_left hi, ho] at ho'
    exact absurd (congrArg Order.status (Option.some.inj ho')).symm hchange
  · rw [heq] at ho'
    unfold updateOrderStatus at ho'
    rw [List.getElem?_map, ho] at ho'
    have ho'' : (if (o.sessionId == e.sessionId) = true
        then ({ o with status := "paid" } : Order) else o) = o' :=
      Option.some.inj ho'
    by_cases hc : (o.sessionId == e.sessionId) = true
    · rw [if_pos hc] at ho''
      have hpaid : o'.status = "paid" := by rw [← ho'']
      have hpending : o.status = "pending" := by
        rcases reachable_status_pending_or_paid cfg st hreach o
          (List.getElem?_mem ho) with hp | hp
        · exact hp
        · rw [hpaid, hp] at hchange
          exact absurd rfl hchange
      rw [hs] at hev
      exact ⟨hpending, hpaid, body, sig, e, hop, hev, hty, beq_iff_eq.mp hc⟩
    · rw [if_neg hc] at ho''
      exact absurd (congrArg Order.status ho'').symm hchange

/-- C1 witness: starting from the empty database, one checkout-session
creation produces a pending order for `sess1`; a verified completion webhook
for `sess1` then flips exactly that row, and the theorem attributes the
change to that verified event. -/
theorem order_status_lifecycle_witness :
    cfgW.webhookSecret = some "whsec" ∧
    ((applyOp cfgW (.createCheckout (some []) (some "a@x.com")
        (some ⟨"sess1", "http://pay"⟩) "o1" 0) emptyDB).2.orders[0]? =
      some ⟨"o1", "sess1", "a@x.com", "pending", "[]", 0⟩) ∧
    ((applyOp cfgW (.webhook (.evt ⟨"checkout.session.completed", "sess1"⟩)
          (mkStripeSig "whsec" (.evt ⟨"checkout.session.completed", "sess1"⟩)))
        ((applyOp cfgW (.createCheckout (some []) (some "a@x.com")
          (some ⟨"sess1", "http://pay"⟩) "o1" 0) emptyDB).2)).2.orders[0]? =
      some ⟨"o1", "sess1", "a@x.com", "paid", "[]", 0⟩) ∧
    ("paid" : String) ≠ "pending" ∧
    ((⟨"o1", "sess1", "a@x.com", "pending", "[]", 0⟩ : Order).status = "pending" ∧
     (⟨"o1", "sess1", "a@x.com", "paid", "[]", 0⟩ : Order).status = "paid" ∧
     ∃ body sig e,
       (Op.webhook (.evt ⟨"checkout.session.completed", "sess1"⟩)
          (mkStripeSig "whsec" (.evt ⟨"checkout.session.completed", "sess1"⟩)))
         = .webhook body sig ∧
       constructEvent "whsec" body sig = .ok e ∧
       e.type = "checkout.session.completed" ∧
       (⟨"o1", "sess1", "a@x.com", "pending", "[]", 0⟩ : Order).sessionId
         = e.sessionId) :=
  ⟨rfl, rfl, rfl, by decide,
    order_status_lifecycle cfgW "whsec"
      ((applyOp cfgW (.createCheckout (some []) (some "a@x.com")
        (some ⟨"sess1", "http://pay"⟩) "o1" 0) emptyDB).2)
      (.webhook (.evt ⟨"checkout.session.completed", "sess1"⟩)
        (mkStripeSig "whsec" (.evt ⟨"checkout.session.completed", "sess1"⟩)))
      0 ⟨"o1", "sess1", "a@x.com", "pending", "[]", 0⟩
      ⟨"o1", "sess1", "a@x.com", "paid", "[]", 0⟩
      rfl (Reachable.step _ _ Reachable.init) rfl rfl (by decide)⟩

/-! ## C5: price round-trip -/

/-- The fractional part printed by `pad2` always has exactly two digits. -/
theorem pad2_length_two : ∀ n, n < 100 → (pad2 n).length = 2 := by decide

/-- C5: a product created by an admin with numeric price `p ≠ 0` is stored
with `price_cents = round(p * 100)` (JS `Math.round`), and the public
listing then renders exactly `renderCents (round (p * 100))`, i.e. the
stored cents over 100 formatted with a two-digit fractional part. -/
theorem product_price_roundtrip (cfg : Config) (auth : Option (List Token))
    (c : Claims) (body : ProductBody) (newId : String) (now : Nat) (st : DB)
    (p : ℚ)
    (hauth : authMiddleware cfg.jwtSecret auth = .ok c)
    (hrole : c.role = "admin")
    (htitle : truthyStr body.title = true)
    (hp : body.price = some p) (hp0 : p ≠ 0) :
    (∃ prod, prod ∈ (productsCreateHandler cfg auth body newId now st).2.products ∧
      prod.id = newId ∧ prod.priceCents = jsRound (p * 100)) ∧
    (∃ l, (productsListHandler
        (productsCreateHandler cfg auth body newId now st).2).1 =
        ⟨200, .productList l⟩ ∧
      ∃ entry, entry ∈ l ∧ entry.id = newId ∧
        entry.price = renderCents (jsRound (p * 100))) ∧
    (∀ k : Int, ∃ ip fp, renderCents k = ip ++ "." ++ fp ∧ fp.length = 2) := by
  have hq : truthyQ (some p) = true := by
    simpa [truthyQ] using hp0
  have hst : (productsCreateHandler cfg auth body newId now st).2 =
      { st with products := st.products ++
        [⟨newId, body.title.getD "", jsRound (p * 100), body.description.getD "",
          body.author.getD "", body.assetKey.getD "", now⟩] } := by
    simp [productsCreateHandler, hauth, hrole, htitle, hp, hq]
  refine ⟨?_, ?_, ?_⟩
  · refine ⟨⟨newId, body.title.getD "", jsRound (p * 100), body.description.getD "",
      body.author.getD "", body.assetKey.getD "", now⟩, ?_, rfl, rfl⟩
    rw [hst]
    simp
  · refine ⟨_, rfl, ?_⟩
    refine ⟨⟨newId, body.title.getD "", renderCents (jsRound (p * 100)),
      body.description.getD "", body.author.getD "", body.assetKey.getD ""⟩,
      ?_, rfl, rfl⟩
    refine List.mem_map.mpr ⟨⟨newId, body.title.getD "", jsRound (p * 100),
      body.description.getD "", body.author.getD "", body.assetKey.getD "", now⟩,
      ?_, rfl⟩
    rw [hst]
    unfold getAllProducts
    rw [List.mem_insertionSort]
    simp
  · intro k
    refine ⟨(if k < 0 then "-" else "") ++ natStr (k.natAbs / 100),
      pad2 (k.natAbs % 100), rfl, ?_⟩
    exact pad2_length_two _ (Nat.mod_lt _ (by norm_num))

/-- C5 witness: creating `title = "Ebook"`, `price = 19.99` stores
`price_cents = 1999` and the listing shows `"19.99"`. -/
theorem product_price_roundtrip_witness :
    authMiddleware cfgW.jwtSecret authW = .ok ⟨"u1", "admin"⟩ ∧
    truthyStr (some "Ebook") = true ∧
    (mkRat 1999 100 : ℚ) ≠ 0 ∧
    jsRound ((mkRat 1999 100 : ℚ) * 100) = 1999 ∧
    renderCents (jsRound ((mkRat 1999 100 : ℚ) * 100)) = "19.99" ∧
    ((∃ prod, prod ∈ (productsCreateHandler cfgW authW
        ⟨some "Ebook", some (mkRat 1999 100), none, none, none⟩ "p1" 3
        emptyDB).2.products ∧
      prod.id = "p1" ∧ prod.priceCents = jsRound ((mkRat 1999 100 : ℚ) * 100)) ∧
    (∃ l, (productsListHandler (productsCreateHandler cfgW authW
        ⟨some "Ebook", some (mkRat 1999 100), none, none, none⟩ "p1" 3
        emptyDB).2).1 = ⟨200, .productList l⟩ ∧
      ∃ entry, entry ∈ l ∧ entry.id = "p1" ∧
        entry.price = renderCents (jsRound ((mkRat 1999 100 : ℚ) * 100))) ∧
    (∀ k : Int, ∃ ip fp, renderCents k = ip ++ "." ++ fp ∧ fp.length = 2)) :=
  ⟨rfl, rfl, by decide, by with_unfolding_all decide, by with_unfolding_all decide,
    product_price_roundtrip cfgW authW ⟨"u1", "admin"⟩
      ⟨some "Ebook", some (mkRat 1999 100), none, none, none⟩ "p1" 3 emptyDB
      (mkRat 1999 100) rfl rfl rfl rfl (by decide)⟩

/-! ## C6: admin-only gating of product CRUD and presign -/

/-- C6: for product create/update/delete and presign: a missing header is
rejected 401 (`No auth`), an unverifiable token 401, a verified non-admin
token 403, in each case leaving the database unchanged; the catalog is
modified only under a verified admin token, and presign never modifies the
database at all. -/
theorem admin_gate (cfg : Config) (st : DB) (auth : Option (List Token))
    (body : ProductBody) (pid newId : String) (now : Nat)
    (filename contentType : Option String) :
    (auth = none →
      authMiddleware cfg.jwtSecret auth = .error ⟨401, .err "No auth"⟩) ∧
    (∀ x tok, auth = some [x, tok] → verifyToken cfg.jwtSecret tok = none →
      authMiddleware cfg.jwtSecret auth = .error ⟨401, .err "Invalid token"⟩) ∧
    (∀ e, authMiddleware cfg.jwtSecret auth = .error e → e.status = 401 ∧
      productsCreateHandler cfg auth body newId now st = (e, st) ∧
      productsUpdateHandler cfg auth pid body st = (e, st) ∧
      productsDeleteHandler cfg auth pid st = (e, st) ∧
      presignHandler cfg auth filename contentType now st = (e, st)) ∧
    (∀ c, authMiddleware cfg.jwtSecret auth = .ok c → c.role ≠ "admin" →
      productsCreateHandler cfg auth body newId now st =
        (⟨403, .err "Forbidden"⟩, st) ∧
      productsUpdateHandler cfg auth pid body st = (⟨403, .err "Forbidden"⟩, st) ∧
      productsDeleteHandler cfg auth pid st = (⟨403, .err "Forbidden"⟩, st) ∧
      presignHandler cfg auth filename contentType now st =
        (⟨403, .err "Forbidden"⟩, st)) ∧
    ((productsCreateHandler cfg auth body newId now st).2 ≠ st →
      ∃ c, authMiddleware cfg.jwtSecret auth = .ok c ∧ c.role = "admin") ∧
    ((productsUpdateHandler cfg auth pid body st).2 ≠ st →
      ∃ c, authMiddleware cfg.jwtSecret auth = .ok c ∧ c.role = "admin") ∧
    ((productsDeleteHandler cfg auth pid st).2 ≠ st →
      ∃ c, authMiddleware cfg.jwtSecret auth = .ok c ∧ c.role = "admin") ∧
    (presignHandler cfg auth filename contentType now st).2 = st := by
  have hpresign : (presignHandler cfg auth filename contentType now st).2 = st := by
    unfold presignHandler
    repeat' split
    all_goals rfl
  refine ⟨?_, ?_, ?_, ?_, ?_, ?_, ?_, hpresign⟩
  · intro h
    subst h
    rfl
  · intro x tok hsome hv
    subst hsome
    simp [authMiddleware, hv]
  · intro e he
    refine ⟨?_, by simp [productsCreateHandler, he],
      by simp [productsUpdateHandler, he],
      by simp [productsDeleteHandler, he], by simp [presignHandler, he]⟩
    unfold authMiddleware at he
    split at he
    · rw [(Except.error.inj he :
        (⟨401, .err "No auth"⟩ : Resp) = e).symm]
    · split at he
      · exact absurd he (by simp)
      · rw [(Except.error.inj he :
          (⟨401, .err "Invalid token"⟩ : Resp) = e).symm]
    · rw [(Except.error.inj he :
        (⟨401, .err "Bad auth"⟩ : Resp) = e).symm]
  · intro c hc hrole
    exact ⟨by simp [productsCreateHandler, hc, hrole],
      by simp [productsUpdateHandler, hc, hrole],
      by simp [productsDeleteHandler, hc, hrole],
      by simp [presignHandler, hc, hrole]⟩
  · intro hmod
    cases hA : authMiddleware cfg.jwtSecret auth with
    | error e => exact absurd (by simp [productsCreateHandler, hA]) hmod
    | ok c =>
      by_cases hr : c.role = "admin"
      · exact ⟨c, rfl, hr⟩
      · exact absurd (by simp [productsCreateHandler, hA, hr]) hmod
  · intro hmod
    cases hA : authMiddleware cfg.jwtSecret auth with
    | error e => exact absurd (by simp [productsUpdateHandler, hA]) hmod
    | ok c =>
      by_cases hr : c.role = "admin"
      · exact ⟨c, rfl, hr⟩
      · exact absurd (by simp [productsUpdateHandler, hA, hr]) hmod
  · intro hmod
    cases hA : authMiddleware cfg.jwtSecret auth with
    | error e => exact absurd (by simp [productsDeleteHandler, hA]) hmod
    | ok c =>
      by_cases hr : c.role = "admin"
      · exact ⟨c, rfl, hr⟩
      · exact absurd (by simp [productsDeleteHandler, hA, hr]) hmod

/-- C6 witness: a verified token whose role is `"user"` gets 403 on delete
with the catalog untouched. -/
theorem admin_gate_witness :
    productsDeleteHandler cfgW
      (some [.invalid "Bearer", .signed "jwt-secret" "u2" "user"]) "p9" emptyDB =
      (⟨403, .err "Forbidden"⟩, emptyDB) :=
  ((admin_gate cfgW emptyDB
      (some [.invalid "Bearer", .signed "jwt-secret" "u2" "user"])
      ⟨none, none, none, none, none⟩ "p9" "pX" 0 none none).2.2.2.1
    ⟨"u2", "user"⟩ rfl (by decide)).2.2.1

/-! ## C7: duplicate signup -/

/-- A signup answered 200 had truthy fields, found no existing row for the
email, and appended exactly one user row with that email. -/
theorem signup_success_state (cfg : Config) (n e p : Option String)
    (id : String) (t : Nat) (st : DB)
    (hsucc : (signupHandler cfg n e p id t st).1.status = 200) :
    truthyStr e = true ∧
    getUserByEmail (e.getD "") st.users = none ∧
    (signupHandler cfg n e p id t st).2.users =
      st.users ++ [⟨id, n.getD "", e.getD "", hashPassword (p.getD ""), "admin", t⟩] := by
  unfold signupHandler at hsucc ⊢
  by_cases htr : (!truthyStr e || !truthyStr p) = true
  · rw [if_pos htr] at hsucc
    simp at hsucc
  · have het : truthyStr e = true := by
      cases he2 : truthyStr e with
      | false => exact absurd (by simp [he2]) htr
      | true => rfl
    rw [if_neg htr] at hsucc ⊢
    cases hfind : getUserByEmail (e.getD "") st.users with
    | some u => simp [hfind] at hsucc
    | none =>
      refine ⟨het, rfl, ?_⟩
      cases hid : getUserById id (st.users ++
          [⟨id, n.getD "", e.getD "", hashPassword (p.getD ""), "admin", t⟩]) with
      | some pub => simp [hid]
      | none => simp [hfind, hid] at hsucc

/-- C7: after a successful signup with email `e`, any second signup with
the same email leaves the users table unchanged, and — whenever it carries
a password at all — is answered 409 Conflict with the whole database
untouched. -/
theorem signup_duplicate_conflict (cfg : Config) (n₁ e p₁ : Option String)
    (id₁ : String) (t₁ : Nat) (st : DB)
    (hsucc : (signupHandler cfg n₁ e p₁ id₁ t₁ st).1.status = 200) :
    ∀ n₂ p₂ id₂ t₂,
      (signupHandler cfg n₂ e p₂ id₂ t₂
        ((signupHandler cfg n₁ e p₁ id₁ t₁ st).2)).2.users =
        ((signupHandler cfg n₁ e p₁ id₁ t₁ st).2).users ∧
      (truthyStr p₂ = true →
        signupHandler cfg n₂ e p₂ id₂ t₂ ((signupHandler cfg n₁ e p₁ id₁ t₁ st).2) =
          (⟨409, .err "Email exists"⟩, (signupHandler cfg n₁ e p₁ id₁ t₁ st).2)) := by
  intro n₂ p₂ id₂ t₂
  obtain ⟨het, hnone, husers⟩ := signup_success_state cfg n₁ e p₁ id₁ t₁ st hsucc
  set st1 := (signupHandler cfg n₁ e p₁ id₁ t₁ st).2 with hst1
  have hfound : getUserByEmail (e.getD "") st1.users =
      some ⟨id₁, n₁.getD "", e.getD "", hashPassword (p₁.getD ""), "admin", t₁⟩ := by
    rw [husers]
    unfold getUserByEmail at hnone ⊢
    rw [List.find?_append, hnone]
    simp [List.find?]
  by_cases hp₂ : truthyStr p₂ = true
  · have h409 : signupHandler cfg n₂ e p₂ id₂ t₂ st1 =
        (⟨409, .err "Email exists"⟩, st1) := by
      unfold signupHandler
      rw [if_neg (by simp [het, hp₂]), hfound]
    exact ⟨by rw [h409], fun _ => h409⟩
  · have hp₂f : truthyStr p₂ = false := by
      cases hx : truthyStr p₂ with
      | false => rfl
      | true => exact absurd hx hp₂
    refine ⟨?_, fun hx => absurd hx hp₂⟩
    unfold signupHandler
    rw [if_pos (by simp [hp₂f])]

/-- C7 witness: signing up `a@x.com` twice — the second attempt returns 409
and adds no row. -/
theorem signup_duplicate_conflict_witness :
    (signupHandler cfgW (some "Ann") (some "a@x.com") (some "pw") "u1" 0
      emptyDB).1.status = 200 ∧
    truthyStr (some "pw2") = true ∧
    ((signupHandler cfgW (some "Bob") (some "a@x.com") (some "pw2") "u2" 1
        ((signupHandler cfgW (some "Ann") (some "a@x.com") (some "pw") "u1" 0
          emptyDB).2)).2.users =
      ((signupHandler cfgW (some "Ann") (some "a@x.com") (some "pw") "u1" 0
        emptyDB).2).users ∧
    (truthyStr (some "pw2") = true →
      signupHandler cfgW (some "Bob") (some "a@x.com") (some "pw2") "u2" 1
        ((signupHandler cfgW (some "Ann") (some "a@x.com") (some "pw") "u1" 0
          emptyDB).2) =
        (⟨409, .err "Email exists"⟩,
          ((signupHandler cfgW (some "Ann") (some "a@x.com") (some "pw") "u1" 0
            emptyDB).2)))) :=
  ⟨rfl, rfl,
    signup_duplicate_conflict cfgW (some "Ann") (some "a@x.com") (some "pw")
      "u1" 0 emptyDB rfl (some "Bob") (some "pw2") "u2" 1⟩

/-! ## C8: login failures are indistinguishable -/

/-- C8: a login with an unknown email and a login with a known email but
wrong password produce the identical response — status 401 with the same
generic error body — and neither changes the database, so the two failure
causes cannot be told apart by the caller. -/
theorem login_failure_indistinguishable (cfg : Config) (st : DB)
    (e₁ p₁ e₂ p₂ : Option String)
    (hunknown : e₁.bind (fun x => getUserByEmail x st.users) = none)
    (hmismatch : ∃ row, e₂.bind (fun x => getUserByEmail x st.users) = some row ∧
      verifyPassword p₂ row.passwordHash = false) :
    loginHandler cfg e₁ p₁ st = (⟨401, .err "Invalid"⟩, st) ∧
    loginHandler cfg e₂ p₂ st = (⟨401, .err "Invalid"⟩, st) ∧
    loginHandler cfg e₁ p₁ st = loginHandler cfg e₂ p₂ st := by
  obtain ⟨row, hrow, hpw⟩ := hmismatch
  have h₁ : loginHandler cfg e₁ p₁ st = (⟨401, .err "Invalid"⟩, st) := by
    unfold loginHandler
    rw [hunknown]
  have h₂ : loginHandler cfg e₂ p₂ st = (⟨401, .err "Invalid"⟩, st) := by
    unfold loginHandler
    rw [hrow]
    dsimp only
    rw [hpw]
    simp
  exact ⟨h₁, h₂, h₁.trans h₂.symm⟩

/-- C8 witness: unknown email `b@x.com` and wrong password for `a@x.com`
get the same 401 `Invalid` response on a one-user database. -/
theorem login_failure_indistinguishable_witness :
    ((some "b@x.com" : Option String).bind (fun x => getUserByEmail x
      [⟨"u1", "Ann", "a@x.com", hashPassword "pw", "admin", 0⟩]) = none) ∧
    (∃ row, (some "a@x.com" : Option String).bind (fun x => getUserByEmail x
        [⟨"u1", "Ann", "a@x.com", hashPassword "pw", "admin", 0⟩]) = some row ∧
      verifyPassword (some "wrong") row.passwordHash = false) ∧
    (loginHandler cfgW (some "b@x.com") (some "pw")
        ⟨[⟨"u1", "Ann", "a@x.com", hashPassword "pw", "admin", 0⟩], [], []⟩ =
      (⟨401, .err "Invalid"⟩,
        ⟨[⟨"u1", "Ann", "a@x.com", hashPassword "pw", "admin", 0⟩], [], []⟩) ∧
    loginHandler cfgW (some "a@x.com") (some "wrong")
        ⟨[⟨"u1", "Ann", "a@x.com", hashPassword "pw", "admin", 0⟩], [], []⟩ =
      (⟨401, .err "Invalid"⟩,
        ⟨[⟨"u1", "Ann", "a@x.com", hashPassword "pw", "admin", 0⟩], [], []⟩) ∧
    loginHandler cfgW (some "b@x.com") (some "pw")
        ⟨[⟨"u1", "Ann", "a@x.com", hashPassword "pw", "admin", 0⟩], [], []⟩ =
      loginHandler cfgW (some "a@x.com") (some "wrong")
        ⟨[⟨"u1", "Ann", "a@x.com", hashPassword "pw", "admin", 0⟩], [], []⟩) :=
  ⟨rfl, ⟨⟨"u1", "Ann", "a@x.com", hashPassword "pw", "admin", 0⟩, rfl, rfl⟩,
    login_failure_indistinguishable cfgW
      ⟨[⟨"u1", "Ann", "a@x.com", hashPassword "pw", "admin", 0⟩], [], []⟩
      (some "b@x.com") (some "pw") (some "a@x.com") (some "wrong") rfl
      ⟨⟨"u1", "Ann", "a@x.com", hashPassword "pw", "admin", 0⟩, rfl, rfl⟩⟩

/-! ## C9: partial update -/

theorem orStr_none (old : String) : orStr none old = old := rfl

theorem orStr_some_ne (s old : String) (h : s ≠ "") : orStr (some s) old = s := by
  simp [orStr, h]

theorem orStr_some_empty (old : String) : orStr (some "") old = old := by
  simp [orStr]

/-- C9 counterexample: updating an existing product while supplying the
empty string as `description` does NOT replace the stored value — the falsy
fallback keeps the old `"old"`, although the claim says every supplied field
is replaced. -/
theorem update_empty_string_counterexample :
    (productsUpdateHandler cfgW authW "p1" ⟨none, none, some "", none, none⟩
      ⟨[], [⟨"p1", "T", 100, "old", "A", "K", 0⟩], []⟩).1 = ⟨200, .okTrue⟩ ∧
    (productsUpdateHandler cfgW authW "p1" ⟨none, none, some "", none, none⟩
      ⟨[], [⟨"p1", "T", 100, "old", "A", "K", 0⟩], []⟩).2.products.map
        Product.description = ["old"] ∧
    ("old" : String) ≠ "" := by
  decide

/-- C9 (amended): under a verified admin token, updating a missing product
id yields 404 NotFound with the database unchanged; updating an existing
product answers 200 and merges fields, where an omitted field — and equally
a supplied falsy one (empty string, or a price whose rounded cents are 0) —
retains the prior stored value, while a supplied truthy field replaces it. -/
theorem update_partial_merge (cfg : Config) (auth : Option (List Token))
    (c : Claims) (pid : String) (body : ProductBody) (st : DB)
    (hauth : authMiddleware cfg.jwtSecret auth = .ok c)
    (hrole : c.role = "admin") :
    (getProductById pid st.products = none →
      productsUpdateHandler cfg auth pid body st = (⟨404, .err "Not found"⟩, st)) ∧
    (∀ row, getProductById pid st.products = some row →
      (productsUpdateHandler cfg auth pid body st).1 = ⟨200, .okTrue⟩ ∧
      ∃ p', (productsUpdateHandler cfg auth pid body st).2.products =
          st.products.map (fun q => if q.id == pid then p' else q) ∧
        p'.id = row.id ∧ p'.createdAt = row.createdAt ∧
        (body.title = none → p'.title = row.title) ∧
        (∀ s, body.title = some s → s ≠ "" → p'.title = s) ∧
        (body.title = some "" → p'.title = row.title) ∧
        (body.description = none → p'.description = row.description) ∧
        (∀ s, body.description = some s → s ≠ "" → p'.description = s) ∧
        (body.description = some "" → p'.description = row.description) ∧
        (body.author = none → p'.author = row.author) ∧
        (∀ s, body.author = some s → s ≠ "" → p'.author = s) ∧
        (body.author = some "" → p'.author = row.author) ∧
        (body.assetKey = none → p'.assetKey = row.assetKey) ∧
        (∀ s, body.assetKey = some s → s ≠ "" → p'.assetKey = s) ∧
        (body.assetKey = some "" → p'.assetKey = row.assetKey) ∧
        (body.price = none → p'.priceCents = row.priceCents) ∧
        (∀ q, body.price = some q → jsRound (q * 100) ≠ 0 →
          p'.priceCents = jsRound (q * 100)) ∧
        (∀ q, body.price = some q → jsRound (q * 100) = 0 →
          p'.priceCents = row.priceCents)) := by
  constructor
  · intro hnone
    unfold productsUpdateHandler
    rw [hauth]
    dsimp only
    rw [if_neg (by simp [hrole]), hnone]
  · intro row hrow
    have hshape : productsUpdateHandler cfg auth pid body st = (⟨200, .okTrue⟩,
        { st with products := st.products.map (fun q => if q.id == pid
            then { row with
              title := orStr body.title row.title
              priceCents := match body.price.map (fun q => jsRound (q * 100)) with
                | some cents => if cents = 0 then row.priceCents else cents
                | none => row.priceCents
              description := orStr body.description row.description
              author := orStr body.author row.author
              assetKey := orStr body.assetKey row.assetKey }
            else q) }) := by
      unfold productsUpdateHandler
      rw [hauth]
      dsimp only
      rw [if_neg (by simp [hrole]), hrow]
    refine ⟨by rw [hshape], { row with
        title := orStr body.title row.title
        priceCents := match body.price.map (fun q => jsRound (q * 100)) with
          | some cents => if cents = 0 then row.priceCents else cents
          | none => row.priceCents
        description := orStr body.description row.description
        author := orStr body.author row.author
        assetKey := orStr body.assetKey row.assetKey },
      by rw [hshape], rfl, rfl, ?_, ?_, ?_, ?_, ?_, ?_,
      ?_, ?_, ?_, ?_, ?_, ?_, ?_, ?_, ?_⟩
    · intro h; rw [h, orStr_none]
    · intro s h hs; rw [h, orStr_some_ne s _ hs]
    · intro h; rw [h, orStr_some_empty]
    · intro h; rw [h, orStr_none]
    · intro s h hs; rw [h, orStr_some_ne s _ hs]
    · intro h; rw [h, orStr_some_empty]
    · intro h; rw [h, orStr_none]
    · intro s h hs; rw [h, orStr_some_ne s _ hs]
    · intro h; rw [h, orStr_some_empty]
    · intro h; rw [h, orStr_none]
    · intro s h hs; rw [h, orStr_some_ne s _ hs]
    · intro h; rw [h, orStr_some_empty]
    · intro h
      rw [h]
      rfl
    · intro q h hq
      rw [h]
      simp [hq]
    · intro q h hq
      rw [h]
      simp [hq]

/-- C9 witness: the amended theorem applied to a one-product database — a
missing id gets 404 unchanged, and a truthy update of `title` replaces it
while the omitted `author` is retained. -/
theorem update_partial_merge_witness :
    authMiddleware cfgW.jwtSecret authW = .ok ⟨"u1", "admin"⟩ ∧
    getProductById "nope" [(⟨"p1", "T", 100, "old", "A", "K", 0⟩ : Product)] = none ∧
    productsUpdateHandler cfgW authW "nope" ⟨some "New", none, none, none, none⟩
      ⟨[], [⟨"p1", "T", 100, "old", "A", "K", 0⟩], []⟩ =
      (⟨404, .err "Not found"⟩, ⟨[], [⟨"p1", "T", 100, "old", "A", "K", 0⟩], []⟩) :=
  ⟨rfl, rfl,
    (update_partial_merge cfgW authW ⟨"u1", "admin"⟩ "nope"
      ⟨some "New", none, none, none, none⟩
      ⟨[], [⟨"p1", "T", 100, "old", "A", "K", 0⟩], []⟩ rfl rfl).1 rfl⟩

/-! ## C10: every signup creates an admin -/

/-- Any single request either leaves the `users` table unchanged or appends
one user row whose role is `"admin"` (signup). -/
theorem users_frame (cfg : Config) (op : Op) (st : DB) :
    (applyOp cfg op st).2.users = st.users ∨
    ∃ u, (applyOp cfg op st).2.users = st.users ++ [u] ∧ u.role = "admin" := by
  cases op with
  | signup name email password newId now =>
    simp only [applyOp]
    unfold signupHandler
    by_cases h1 : (!truthyStr email || !truthyStr password) = true
    · left
      rw [if_pos h1]
    · rw [if_neg h1]
      cases h2 : getUserByEmail (email.getD "") st.users with
      | some u => left; rfl
      | none =>
        dsimp only
        cases h3 : getUserById newId (st.users ++
            [⟨newId, name.getD "", email.getD "", hashPassword (password.getD ""),
              "admin", now⟩]) with
        | some pub => right; exact ⟨_, rfl, rfl⟩
        | none => left; rfl
  | login email password =>
    left
    simp only [applyOp]
    unfold loginHandler
    repeat' split
    all_goals rfl
  | listProducts => left; rfl
  | createProduct auth body newId now =>
    left
    simp only [applyOp]
    unfold productsCreateHandler
    repeat' split
    all_goals rfl
  | updateProduct auth pid body =>
    left
    simp only [applyOp]
    unfold productsUpdateHandler
    repeat' split
    all_goals rfl
  | deleteProduct auth pid =>
    left
    simp only [applyOp]
    unfold productsDeleteHandler
    repeat' split
    all_goals rfl
  | presign auth filename contentType now =>
    left
    simp only [applyOp]
    unfold presignHandler
    repeat' split
    all_goals rfl
  | createCheckout items customerEmail sessionResult newId now =>
    left
    simp only [applyOp]
    unfold checkoutHandler
    repeat' split
    all_goals rfl
  | webhook body sig =>
    left
    simp only [applyOp]
    unfold webhookHandler
    repeat' split
    all_goals dsimp only
    all_goals repeat' split
    all_goals rfl

/-- Every user row in a reachable state has role `"admin"`. -/
theorem reachable_users_admin (cfg : Config) (st : DB) (h : Reachable cfg st) :
    ∀ u ∈ st.users, u.role = "admin" := by
  induction h with
  | init => intro u hu; simp [emptyDB] at hu
  | step op st' _ ih =>
    rcases users_frame cfg op st' with heq | ⟨u2, heq, hrole⟩
    · rw [heq]; exact ih
    · rw [heq]
      intro x hx
      rcases List.mem_append.mp hx with hx | hx
      · exact ih x hx
      · rw [List.mem_singleton.mp hx]
        exact hrole

/-- A `getUserById` projection of an all-admin table has role `"admin"`. -/
theorem getUserById_role_admin (uid : String) (users : List User)
    (hall : ∀ u ∈ users, u.role = "admin") (pub : PubUser)
    (h : getUserById uid users = some pub) : pub.role = "admin" := by
  unfold getUserById at h
  obtain ⟨u0, hu0, hproj⟩ := Option.map_eq_some'.mp h
  have hr := hall u0 (List.mem_of_find?_eq_some hu0)
  rw [← hproj]
  exact hr

/-- C10: in any reachable state every stored user has role `"admin"`; a
successful signup or login therefore returns a token signed with the server
secret over role `"admin"`, the auth middleware accepts it with admin
claims, and the admin-role check guarding product create/update/delete and
presign can never answer 401 or 403 for requests bearing such a token. -/
theorem signup_login_admin_tokens (cfg : Config) (st : DB)
    (hreach : Reachable cfg st) :
    (∀ u ∈ st.users, u.role = "admin") ∧
    (∀ name email password newId now tok pub,
      (signupHandler cfg name email password newId now st).1 =
        ⟨200, .authOk tok pub⟩ →
      pub.role = "admin" ∧ tok = .signed cfg.jwtSecret pub.id "admin" ∧
      ∀ x, authMiddleware cfg.jwtSecret (some [x, tok]) = .ok ⟨pub.id, "admin"⟩) ∧
    (∀ email password tok pub,
      (loginHandler cfg email password st).1 = ⟨200, .authOk tok pub⟩ →
      pub.role = "admin" ∧ tok = .signed cfg.jwtSecret pub.id "admin" ∧
      ∀ x, authMiddleware cfg.jwtSecret (some [x, tok]) = .ok ⟨pub.id, "admin"⟩) ∧
    (∀ x sub body pid newId2 now2 fn ct st2,
      ((productsCreateHandler cfg (some [x, .signed cfg.jwtSecret sub "admin"])
        body newId2 now2 st2).1.status = 400 ∨
       (productsCreateHandler cfg (some [x, .signed cfg.jwtSecret sub "admin"])
        body newId2 now2 st2).1.status = 200) ∧
      ((productsUpdateHandler cfg (some [x, .signed cfg.jwtSecret sub "admin"])
        pid body st2).1.status = 404 ∨
       (productsUpdateHandler cfg (some [x, .signed cfg.jwtSecret sub "admin"])
        pid body st2).1.status = 200) ∧
      (productsDeleteHandler cfg (some [x, .signed cfg.jwtSecret sub "admin"])
        pid st2).1.status = 200 ∧
      ((presignHandler cfg (some [x, .signed cfg.jwtSecret sub "admin"])
        fn ct now2 st2).1.status = 400 ∨
       (presignHandler cfg (some [x, .signed cfg.jwtSecret sub "admin"])
        fn ct now2 st2).1.status = 200)) := by
  have hall := reachable_users_admin cfg st hreach
  refine ⟨hall, ?_, ?_, ?_⟩
  · intro name email password newId now tok pub hresp
    unfold signupHandler at hresp
    by_cases h1 : (!truthyStr email || !truthyStr password) = true
    · rw [if_pos h1] at hresp
      simp at hresp
    · rw [if_neg h1] at hresp
      cases h2 : getUserByEmail (email.getD "") st.users with
      | some u => simp [h2] at hresp
      | none =>
        cases h3 : getUserById newId (st.users ++
            [⟨newId, name.getD "", email.getD "", hashPassword (password.getD ""),
              "admin", now⟩]) with
        | none => simp [h2, h3] at hresp
        | some pub' =>
          simp only [h2, h3] at hresp
          have hinj : RespBody.authOk
              (generateToken cfg.jwtSecret pub'.id pub'.role) pub' =
              .authOk tok pub := congrArg Resp.body hresp
          injection hinj with htok hpub
          have hrole : pub'.role = "admin" := by
            refine getUserById_role_admin newId _ ?_ pub' h3
            intro u hu
            rcases List.mem_append.mp hu with hu | hu
            · exact hall u hu
            · rw [List.mem_singleton.mp hu]
          subst hpub
          refine ⟨hrole, ?_, ?_⟩
          · rw [← htok, generateToken, hrole]
          · intro x
            rw [← htok]
            simp [authMiddleware, generateToken, verifyToken, hrole]
  · intro email password tok pub hresp
    unfold loginHandler at hresp
    cases h1 : email.bind (fun x => getUserByEmail x st.users) with
    | none => simp [h1] at hresp
    | some row =>
      have hrowmem : row ∈ st.users := by
        cases email with
        | none => simp at h1
        | some e =>
          simp only [Option.some_bind] at h1
          exact List.mem_of_find?_eq_some h1
      by_cases h2 : verifyPassword password row.passwordHash = true
      · cases h3 : getUserById row.id st.users with
        | none => simp [h1, h2, h3] at hresp
        | some pub' =>
          simp only [h1, h2, h3, if_pos] at hresp
          have hinj : RespBody.authOk
              (generateToken cfg.jwtSecret pub'.id pub'.role) pub' =
              .authOk tok pub := congrArg Resp.body hresp
          injection hinj with htok hpub
          have hrole : pub'.role = "admin" :=
            getUserById_role_admin row.id _ hall pub' h3
          subst hpub
          refine ⟨hrole, ?_, ?_⟩
          · rw [← htok, generateToken, hrole]
          · intro x
            rw [← htok]
            simp [authMiddleware, generateToken, verifyToken, hrole]
      · simp [h1, h2] at hresp
  · intro x sub body pid newId2 now2 fn ct st2
    have hmid : authMiddleware cfg.jwtSecret
        (some [x, .signed cfg.jwtSecret sub "admin"]) = .ok ⟨sub, "admin"⟩ := by
      simp [authMiddleware, verifyToken]
    refine ⟨?_, ?_, ?_, ?_⟩
    · unfold productsCreateHandler
      rw [hmid]
      dsimp only
      rw [if_neg (by simp)]
      split
      · exact Or.inl rfl
      · exact Or.inr rfl
    · unfold productsUpdateHandler
      rw [hmid]
      dsimp only
      rw [if_neg (by simp)]
      split
      · exact Or.inl rfl
      · exact Or.inr rfl
    · unfold productsDeleteHandler
      rw [hmid]
      dsimp only
      rw [if_neg (by simp)]
    · unfold presignHandler
      rw [hmid]
      dsimp only
      rw [if_neg (by simp)]
      split
      · exact Or.inl rfl
      · exact Or.inr rfl

/-- C10 witness: on the empty database a concrete signup issues an
admin-role token that the middleware accepts with admin claims. -/
theorem signup_login_admin_tokens_witness :
    ((signupHandler cfgW (some "Ann") (some "a@x.com") (some "pw") "u1" 0
        emptyDB).1 =
      ⟨200, .authOk (.signed "jwt-secret" "u1" "admin")
        ⟨"u1", "Ann", "a@x.com", "admin", 0⟩⟩) ∧
    ((⟨"u1", "Ann", "a@x.com", "admin", 0⟩ : PubUser).role = "admin" ∧
      Token.signed "jwt-secret" "u1" "admin" =
        .signed cfgW.jwtSecret
          (⟨"u1", "Ann", "a@x.com", "admin", 0⟩ : PubUser).id "admin" ∧
      ∀ y, authMiddleware cfgW.jwtSecret
        (some [y, .signed "jwt-secret" "u1" "admin"]) =
        .ok ⟨(⟨"u1", "Ann", "a@x.com", "admin", 0⟩ : PubUser).id, "admin"⟩) :=
  ⟨rfl,
    (signup_login_admin_tokens cfgW emptyDB Reachable.init).2.1
      (some "Ann") (some "a@x.com") (some "pw") "u1" 0
      (.signed "jwt-secret" "u1" "admin")
      ⟨"u1", "Ann", "a@x.com", "admin", 0⟩ rfl⟩

end Marketplace
